import Mathlib

/-!
Verification development for the JSE decision-support repository.

The Python sources are shallowly embedded: strings are Lean `String`
(a wrapper around `List Char`, matching Python code-point semantics),
Python `None`-able values are `Option`, dictionaries with a fixed key set
are structures with `Option` fields for optional keys, and code that can
raise is embedded in `Except`.  External effects (the Snowflake session,
library imports, the LLM backend) are modelled as explicit parameters.
-/

/-! ### Generic string helpers (Python semantics) -/

/-- Python substring containment on character lists: `needle` occurs
contiguously in `hay` (the empty needle always occurs). -/
def hasSubstr : List Char → List Char → Bool
  | [], needle => needle.isEmpty
  | c :: t, needle => needle.isPrefixOf (c :: t) || hasSubstr t needle

/-- Python `needle in hay` on strings. -/
def strIn (needle hay : String) : Bool :=
  hasSubstr hay.data needle.data

/-- Python `str.lower()` (ASCII case folding, which covers every string
appearing in this repository). -/
def lowerStr (s : String) : String :=
  String.mk (s.data.map Char.toLower)

/-- Python slice `s[:n]` (code-point based). -/
def strTake (s : String) (n : Nat) : String :=
  String.mk (s.data.take n)

/-- Python `sep.join(parts)`. -/
def joinSep (sep : String) : List String → String
  | [] => ""
  | [x] => x
  | x :: y :: t => x ++ sep ++ joinSep sep (y :: t)

/-- Python `str.strip()` on character lists: drop leading and trailing
whitespace. -/
def stripChars (cs : List Char) : List Char :=
  ((cs.dropWhile Char.isWhitespace).reverse.dropWhile Char.isWhitespace).reverse

/-- Python `s.split()` helper: accumulate the current word (reversed) while
scanning; whitespace runs separate words, empty words are dropped. -/
def splitWsAux : List Char → List Char → List (List Char)
  | [], acc => if acc.isEmpty then [] else [acc.reverse]
  | c :: t, acc =>
    if c.isWhitespace then
      if acc.isEmpty then splitWsAux t [] else acc.reverse :: splitWsAux t []
    else splitWsAux t (c :: acc)

/-- Python `s.split()` with no separator argument. -/
def splitWs (s : String) : List String :=
  (splitWsAux s.data []).map String.mk

/-! ### Embedding of `src/utils/cortex_utils.py` -/

/-- Preamble for the `general` analysis mode (`system_prompts["general"]`). -/
def generalPreamble : String :=
  "You are a senior financial analyst specializing in JSE-listed equities. \nProvide clear, well-reasoned analysis based on the provided context. \nFocus on actionable insights and always cite your sources from the context.\nDo not make price predictions. Instead, highlight key factors that could influence investment decisions."

/-- Preamble for the `fundamental` analysis mode. -/
def fundamentalPreamble : String :=
  "You are a fundamental analyst examining JSE-listed companies.\nFocus on financial metrics, valuation ratios, earnings quality, and competitive positioning.\nAnalyze the provided data to assess the company\x27s financial health and intrinsic value drivers.\nDo not predict prices. Highlight strengths, weaknesses, and key metrics to monitor."

/-- Preamble for the `technical` analysis mode. -/
def technicalPreamble : String :=
  "You are a technical analyst reviewing JSE equity charts and patterns.\nAnalyze price action, volume, support/resistance levels, and relevant indicators.\nIdentify key levels and patterns without making specific price predictions.\nFocus on risk management and probability-based scenarios."

/-- Preamble for the `sentiment` analysis mode. -/
def sentimentPreamble : String :=
  "You are a market sentiment analyst covering JSE equities.\nAnalyze news, SENS announcements, and market commentary to gauge investor sentiment.\nIdentify key themes, concerns, and catalysts driving market perception.\nProvide balanced view of bullish and bearish arguments."

/-- Preamble for the `news` analysis mode. -/
def newsPreamble : String :=
  "You are a financial news analyst covering JSE-listed companies.\nSummarize key developments, corporate actions, and material announcements.\nAssess potential impact on the company and its stakeholders.\nHighlight what investors should monitor going forward."

/-- The `system_prompts` dictionary lookup with the `.get(analysis_type,
system_prompts["general"])` default, from `build_analysis_prompt`. -/
def systemPromptFor (analysis_type : String) : String :=
  if analysis_type = "general" then generalPreamble
  else if analysis_type = "fundamental" then fundamentalPreamble
  else if analysis_type = "technical" then technicalPreamble
  else if analysis_type = "sentiment" then sentimentPreamble
  else if analysis_type = "news" then newsPreamble
  else generalPreamble

/-- Embedding of `build_analysis_prompt(context, question, analysis_type)`. -/
def build_analysis_prompt (context question analysis_type : String) : String :=
  systemPromptFor analysis_type ++ "\n\nCONTEXT:\n" ++ context ++
    "\n\nUSER QUESTION:\n" ++ question ++
    "\n\nProvide a thorough but concise analysis. Structure your response with clear sections where appropriate.\n"

/-- Python exception classes relevant to `call_cortex_complete`: the
`ImportError` class, which the code catches, and every other exception,
which it does not. -/
inductive PyExc where
  | impErr : PyExc
  | runErr : String → PyExc
deriving DecidableEq, Repr

/-- Message text of an exception, as interpolated by `str(e)`. -/
def excMsg : PyExc → String
  | .impErr => "ImportError"
  | .runErr m => m

/-- External behaviour visible to `call_cortex_complete`: whether
`get_session()` returns a session, whether `from snowflake.cortex import
Complete` succeeds, and the outcomes of the library call and of the whole
SQL fallback body (lines 61-78), each either a value or a raised
exception. -/
structure CortexEnv where
  hasSession : Bool
  importCortexOk : Bool
  completeOutcome : Except PyExc String
  sqlOutcome : Except PyExc String

/-- The SQL fallback block of `call_cortex_complete`: its inner
`try ... except Exception as e` turns every exception into the string
`"Error calling Cortex: " + str(e)`. -/
def sqlFallback (env : CortexEnv) : Except PyExc String :=
  match env.sqlOutcome with
  | .ok s => .ok s
  | .error e => .ok ("Error calling Cortex: " ++ excMsg e)

/-- Embedding of `call_cortex_complete`.  The outer `try` body is the
library import plus the `Complete` call; only `ImportError` is caught and
routed to the SQL fallback, so any other exception raised by the
`Complete` call propagates (`Except.error`). -/
def call_cortex_complete (env : CortexEnv) (_prompt : String) : Except PyExc String :=
  if !env.hasSession then .ok "Error: No Snowflake session available"
  else if !env.importCortexOk then sqlFallback env
  else
    match env.completeOutcome with
    | .ok s => .ok s
    | .error .impErr => sqlFallback env
    | .error (.runErr m) => .error (.runErr m)

/-! ### Embedding of `chunk_text` from `src/utils/data_utils.py`

Every call site in the repository uses the default parameters
`chunk_size=1000`, `overlap=200`; the embedding fixes them.  The float
expression `int(chunk_size * 0.2)` evaluates to exactly `200` in IEEE
double arithmetic for `chunk_size = 1000`, so the sentence-boundary search
window is the constant `200` here. -/

/-- Whether positions `i, i+1` of `cs` hold the two characters `". "`. -/
def dotSpaceAt (cs : List Char) (i : Nat) : Bool :=
  cs.getD i 'x' == '.' && cs.getD (i + 1) 'x' == ' '

/-- Python `text.rfind('. ', lo, hi)`: the largest `i` with
`lo ≤ i ≤ hi - 2` such that `". "` occurs at `i`, as an `Option`. -/
def rfindDotSpace (cs : List Char) (lo hi : Nat) : Option Nat :=
  ((List.range' lo (hi - 1 - lo)).reverse).find? (fun i => dotSpaceAt cs i)

theorem rfindDotSpace_ge {cs : List Char} {lo hi i : Nat}
    (h : rfindDotSpace cs lo hi = some i) : lo ≤ i := by
  have hm := List.mem_of_find?_eq_some h
  rw [List.mem_reverse, List.mem_range'] at hm
  obtain ⟨k, _, rfl⟩ := hm
  omega

theorem rfindDotSpace_lt {cs : List Char} {lo hi i : Nat}
    (h : rfindDotSpace cs lo hi = some i) : i + 2 ≤ hi := by
  have hm := List.mem_of_find?_eq_some h
  rw [List.mem_reverse, List.mem_range'] at hm
  obtain ⟨k, hk, rfl⟩ := hm
  omega

/-- The loop-body computation of the slice end in `chunk_text`:
`end = start + chunk_size`, then if `end < len(text)` search the last 20%
of the window for `". "` and snap the end to just after it. -/
def nextEnd (cs : List Char) (start : Nat) : Nat :=
  if start + 1000 < cs.length then
    match rfindDotSpace cs (start + 1000 - 200) (start + 1000) with
    | some idx => idx + 1
    | none => start + 1000
  else start + 1000

theorem nextEnd_ge (cs : List Char) (start : Nat) :
    start + 801 ≤ nextEnd cs start := by
  unfold nextEnd
  split
  · split
    · next idx h =>
      have := rfindDotSpace_ge h
      omega
    · omega
  · omega

theorem nextEnd_le (cs : List Char) (start : Nat) :
    nextEnd cs start ≤ start + 1000 := by
  unfold nextEnd
  split
  · split
    · next idx h =>
      have := rfindDotSpace_lt h
      omega
    · omega
  · omega

/-- The `while start < len(text)` loop of `chunk_text`: emit the stripped
slice `text[start:end]` and advance `start` to `end - overlap`. -/
def chunkLoop (cs : List Char) (start : Nat) : List (List Char) :=
  if h : start < cs.length then
    stripChars ((cs.drop start).take (nextEnd cs start - start))
      :: chunkLoop cs (nextEnd cs start - 200)
  else []
termination_by cs.length - start
decreasing_by
  have := nextEnd_ge cs start
  omega

/-- Embedding of `chunk_text(text)` at the default parameters. -/
def chunk_text (text : String) : List String :=
  if text.data.isEmpty then []
  else (chunkLoop text.data 0).map String.mk

/-! ### Embedding of `get_relevant_context` from `src/pages/ai_analyst.py` -/

/-- A stored document record, as read by the relevance selector.  The
selector touches the keys `name`, `content`, `chunks`, `summary`,
`ticker`; optional keys are `Option` fields.  The `ticker` key, when
present, can hold Python `None` (a document ingested with no associated
company), hence `Option (Option String)`. -/
structure Doc where
  name : String
  content : Option String
  chunks : Option (List String)
  summary : Option String
  tickerKey : Option (Option String)
deriving DecidableEq, Repr

/-- Value of `doc.get("ticker", "")`: the empty string when the key is
absent, otherwise the stored value (which can be `None`). -/
def docTicker (d : Doc) : Option String :=
  match d.tickerKey with
  | none => some ""
  | some none => none
  | some (some s) => some s

/-- Python truthiness of the optional `ticker` argument. -/
def tickerTruthy : Option String → Bool
  | some t => t != ""
  | none => false

/-- The token check of line 48: some whitespace-separated token of the
lowered question, longer than 3 characters, occurs in the lowered
document name. -/
def tokenMatch (question docNameLower : String) : Bool :=
  (splitWs (lowerStr question)).any
    (fun w => decide (w.length > 3) && strIn w docNameLower)

/-- Relevance decision for one document (lines 36-49).  When the ticker
filter is truthy, line 42 evaluates `doc_ticker.lower()`, which raises
`AttributeError` if the stored ticker value is `None`. -/
def isRelevantDoc (question : String) (tf : Option String) (d : Doc) :
    Except Unit Bool :=
  if tickerTruthy tf then
    match docTicker d with
    | none => .error ()
    | some dt =>
      .ok ((lowerStr (tf.getD "") == lowerStr dt)
        || strIn (lowerStr (tf.getD "")) (lowerStr d.name)
        || strIn (lowerStr (tf.getD "")) (lowerStr (strTake (d.content.getD "") 1000))
        || tokenMatch question (lowerStr d.name))
  else
    .ok (tokenMatch question (lowerStr d.name))

/-- The `elif "content" ... elif "summary"` fallback of lines 56-59, as
labelled fragments `(source_label, text)`. -/
def docContentFrags (d : Doc) : List (String × String) :=
  match d.content with
  | some content => [(d.name, strTake content 1500)]
  | none =>
    match d.summary with
    | some s => [(d.name ++ " - Summary", s)]
    | none => []

/-- Fragments contributed by one relevant document (lines 51-59): the
first 3 chunks truncated to 800 characters when a non-empty chunk list
exists, else the content or summary fallback. -/
def docFragments (d : Doc) : List (String × String) :=
  match d.chunks with
  | some cs =>
    if cs.isEmpty then docContentFrags d
    else (cs.take 3).map (fun c => (d.name, strTake c 800))
  | none => docContentFrags d

/-- The `for doc in uploaded_documents` loop, accumulating fragments in
input order; a raised `AttributeError` aborts the whole call. -/
def docParts (question : String) (tf : Option String) :
    List Doc → Except Unit (List (String × String))
  | [] => .ok []
  | d :: ds => do
    let rel ← isRelevantDoc question tf d
    let rest ← docParts question tf ds
    pure ((if rel then docFragments d else []) ++ rest)

/-- A user company record (`companies` entries). -/
structure Company where
  ticker : String
  name : String
  sector : String
deriving DecidableEq, Repr

/-- A SENS announcement record as read by the selector; `date` is the
timestamp used only for ordering comparisons. -/
structure Announcement where
  ticker : String
  headline : Option String
  category : Option String
  date : Int
deriving DecidableEq, Repr

/-- Keyword trigger of line 62. -/
def companyKeyword (question : String) : Bool :=
  ["company", "companies", "sector", "all"].any
    (fun w => strIn w (lowerStr question))

/-- Keyword trigger of line 72. -/
def sensKeyword (question : String) : Bool :=
  ["sens", "announcement", "news", "update"].any
    (fun w => strIn w (lowerStr question))

/-- The company listing of line 63. -/
def companyLines (companies : List Company) : String :=
  joinSep "\n" (companies.map
    (fun c => "- " ++ c.ticker ++ ": " ++ c.name ++ " (" ++ c.sector ++ ")"))

/-- The watchlist line of line 68. -/
def watchlistLine (watchlist : List String) : String :=
  "Tickers being watched: " ++ joinSep ", " watchlist

/-- One announcement line of line 74. -/
def fmtAnnouncement (a : Announcement) : String :=
  "- " ++ a.ticker ++ ": " ++ a.headline.getD "N/A" ++ " (" ++ a.category.getD "N/A" ++ ")"

/-- The announcements listing of lines 73-74: the first five entries of
the stored list, in stored order. -/
def sensLines (sens : List Announcement) : String :=
  joinSep "\n" ((sens.take 5).map fmtAnnouncement)

/-- All context fragments assembled by `get_relevant_context`, in order:
document fragments, then the company, watchlist and announcement
supplements when triggered. -/
def contextFragments (question : String) (tf : Option String) (docs : List Doc)
    (companies : List Company) (watchlist : List String)
    (sens : List Announcement) : Except Unit (List (String × String)) := do
  let base ← docParts question tf docs
  let l1 := if !companies.isEmpty && companyKeyword question
    then base ++ [("User Companies", companyLines companies)] else base
  let l2 := if !watchlist.isEmpty && strIn "watchlist" (lowerStr question)
    then l1 ++ [("Watchlist", watchlistLine watchlist)] else l1
  pure (if !sens.isEmpty && sensKeyword question
    then l2 ++ [("SENS Announcements", sensLines sens)] else l2)

/-- Rendering of one fragment into the context block. -/
def mkPart (p : String × String) : String :=
  "[Source: " ++ p.1 ++ "]\n" ++ p.2

/-- Embedding of `get_relevant_context(question, ticker)` over explicit
session collections. -/
def get_relevant_context (question : String) (tf : Option String)
    (docs : List Doc) (companies : List Company) (watchlist : List String)
    (sens : List Announcement) : Except Unit String :=
  (contextFragments question tf docs companies watchlist sens).map
    (fun parts =>
      if parts.isEmpty then "" else joinSep "\n\n---\n\n" (parts.map mkPart))

/-! ### Embedding of the citation extractor (lines 147-152) -/

/-- The literal opening of a provenance tag. -/
def srcOpen : List Char := "[Source: ".data

/-- Scanner equivalent to `re.findall(r'\\[Source: ([^\\]]+)\\]', s)`: at
each position, a match needs the opening tag, then one or more
non-`]` characters, then `]`; scanning resumes after a match, or one
character further on failure.  The fuel argument makes the recursion
structural; every step consumes at least one character, so fuel equal to
the list length never runs out. -/
def scanCitAux : Nat → List Char → List (List Char)
  | 0, _ => []
  | _ + 1, [] => []
  | fuel + 1, c :: cs =>
    if srcOpen.isPrefixOf (c :: cs) then
      if (((c :: cs).drop 9).dropWhile (fun x => x != ']')).isEmpty then
        scanCitAux fuel cs
      else if (((c :: cs).drop 9).takeWhile (fun x => x != ']')).isEmpty then
        scanCitAux fuel cs
      else
        (((c :: cs).drop 9).takeWhile (fun x => x != ']'))
          :: scanCitAux fuel ((((c :: cs).drop 9).dropWhile (fun x => x != ']')).tail)
    else scanCitAux fuel cs

/-- Embedding of the source extraction in `render_chat_interface`:
`list(set(re.findall(...)))`, here as a deduplicated list. -/
def extractCitations (s : String) : List String :=
  ((scanCitAux s.data.length s.data).map String.mk).dedup

/-! ### Embedding of the PDF branch of `render_document_upload` from
`src/pages/data_ingestion.py` (lines 79-139) -/

/-- Processing of one uploaded PDF: `doc_data` starts as metadata (name,
type, size, upload time, ticker); when extraction yields truthy text the
content, chunks and summary keys are added; the record is appended to the
document collection unconditionally (line 131).  `extractResult` is the
return value of `extract_text_from_pdf` and `summaryText` the value the
summarisation call returns. -/
def processPdfUpload (fileName : String) (tick : Option String)
    (extractResult : Option String) (summaryText : String)
    (docs : List Doc) : List Doc :=
  let base : Doc := ⟨fileName, none, none, none, some tick⟩
  let docData :=
    match extractResult with
    | some text =>
      if text != "" then
        { base with content := some text, chunks := some (chunk_text text),
                    summary := some summaryText }
      else base
    | none => base
  docs ++ [docData]

/-! ### Embedding of configuration import from `src/pages/settings.py`
(lines 188-208) -/

/-- Atomic JSON values sufficient for the import logic; `dec m e` stands
for the decimal literal `m / 10^e` (so `dec 3 1` is `0.3`). -/
inductive JAtom where
  | str : String → JAtom
  | num : Int → JAtom
  | dec : Int → Nat → JAtom
deriving DecidableEq, Repr

/-- JSON values as far as the import logic inspects them: atoms, or a
flat object (needed for the `settings` sub-object). -/
inductive JVal where
  | atom : JAtom → JVal
  | obj : List (String × JAtom) → JVal
deriving DecidableEq, Repr

/-- The session-state pieces touched or (for `messages`, standing in for
all unrelated state) untouched by configuration import. -/
structure SessionState where
  portfolio : JVal
  watchlist : JVal
  tracked_tickers : JVal
  cortex_model : JVal
  temperature : JVal
  max_tokens : JVal
  messages : JVal
deriving DecidableEq, Repr

/-- Embedding of the `Apply Configuration` handler: each recognized
top-level key is applied only if present; when `settings` is present its
three fields are read with `.get` and defaults
(`claude-3-5-sonnet`, `0.3`, `2048`).  A non-object `settings` value
would raise (`.get` missing), modelled as `Except.error`. -/
def applyConfig (st : SessionState) (cfg : List (String × JVal)) :
    Except Unit SessionState :=
  let st1 := match List.lookup "portfolio" cfg with
    | some v => { st with portfolio := v }
    | none => st
  let st2 := match List.lookup "watchlist" cfg with
    | some v => { st1 with watchlist := v }
    | none => st1
  let st3 := match List.lookup "tracked_tickers" cfg with
    | some v => { st2 with tracked_tickers := v }
    | none => st2
  match List.lookup "settings" cfg with
  | none => .ok st3
  | some (.obj svs) => .ok { st3 with
      cortex_model := .atom ((List.lookup "cortex_model" svs).getD (.str "claude-3-5-sonnet")),
      temperature := .atom ((List.lookup "temperature" svs).getD (.dec 3 1)),
      max_tokens := .atom ((List.lookup "max_tokens" svs).getD (.num 2048)) }
  | some (.atom _) => .error ()

/-- Modelled from the spec: insertion into a list kept in descending date
order, used to state what "the 5 most recent announcements (by date)"
means.  This definition follows the claim wording, not the code. -/
def insertByDateDesc (a : Announcement) : List Announcement → List Announcement
  | [] => [a]
  | b :: t => if b.date ≤ a.date then a :: b :: t else b :: insertByDateDesc a t

/-- Modelled from the spec: the announcements sorted newest-first. -/
def sortByDateDesc (l : List Announcement) : List Announcement :=
  l.foldr insertByDateDesc []

/-- Modelled from the spec: the 5 most recent announcements by date. -/
def specMostRecent5 (l : List Announcement) : List Announcement :=
  (sortByDateDesc l).take 5

/-! ### Claim theorems -/

/-- Necessary condition for a preamble to contain any instruction about
price predictions: the word `price` or `predict` occurs in it (matched
case-insensitively). -/
def mentionsPriceTerm (s : String) : Bool :=
  strIn "price" (lowerStr s) || strIn "predict" (lowerStr s)

set_option maxRecDepth 8192 in
/-- C1: the claim says every analysis mode in {general, fundamental,
technical, sentiment, news} selects a preamble instructing the model to
never produce price predictions.  The general, fundamental and technical
preambles do contain such an instruction, but the sentiment and news
preambles contain neither the word `price` nor the word `predict`, so
they carry no such instruction: the claim fails for those two modes. -/
theorem C1_sentiment_news_preambles_lack_price_guard :
    mentionsPriceTerm (systemPromptFor "general") = true ∧
    mentionsPriceTerm (systemPromptFor "fundamental") = true ∧
    mentionsPriceTerm (systemPromptFor "technical") = true ∧
    mentionsPriceTerm (systemPromptFor "sentiment") = false ∧
    mentionsPriceTerm (systemPromptFor "news") = false := by
  refine ⟨?_, ?_, ?_, ?_, ?_⟩ <;> decide

/-- C5 (amended): the completion call returns the fixed error string when
no backend session exists, and the only way it can propagate an exception
is a non-`ImportError` exception raised by the library `Complete` call;
every failure on the SQL fallback path is returned as an error string. -/
theorem C5_complete_error_paths (env : CortexEnv) (p : String) :
    (env.hasSession = false →
      call_cortex_complete env p = .ok "Error: No Snowflake session available") ∧
    (∀ e, call_cortex_complete env p = .error e →
      ∃ m, e = .runErr m ∧ env.importCortexOk = true ∧
        env.completeOutcome = .error (.runErr m)) := by
  obtain ⟨hs, hi, co, so⟩ := env
  refine ⟨?_, ?_⟩
  · intro h
    subst h
    rfl
  · intro e he
    cases hs with
    | false => simp [call_cortex_complete] at he
    | true =>
      cases hi with
      | false =>
        cases so <;> simp [call_cortex_complete, sqlFallback] at he
      | true =>
        cases co with
        | ok s => simp [call_cortex_complete] at he
        | error ex =>
          cases ex with
          | impErr => cases so <;> simp [call_cortex_complete, sqlFallback] at he
          | runErr m =>
            simp [call_cortex_complete] at he
            exact ⟨m, by simp [he], rfl, rfl⟩

/-- C5 witness: the no-session case at a concrete environment. -/
theorem C5_complete_error_paths_witness :
    call_cortex_complete ⟨false, true, Except.ok "r", Except.ok "s"⟩ "p"
      = Except.ok "Error: No Snowflake session available" :=
  (C5_complete_error_paths ⟨false, true, Except.ok "r", Except.ok "s"⟩ "p").1 rfl

/-- C5 counterexample: with a session and an importable library, an
exception from the `Complete` call that is not an `ImportError`
propagates out of `call_cortex_complete`, contradicting the claim that it
never raises. -/
theorem C5_cex_backend_exception_propagates :
    call_cortex_complete
        ⟨true, true, Except.error (PyExc.runErr "connection reset"), Except.ok "unused"⟩
        "prompt"
      = Except.error (PyExc.runErr "connection reset") := rfl

/-- C6 (amended): when text extraction returns a null result, the upload
handler still appends a metadata-only document record (no content, chunks
or summary keys) to the collection; previously ingested items are left
unchanged as a prefix. -/
theorem C6_failed_extraction_appends_metadata_record
    (fileName : String) (tick : Option String) (summaryText : String)
    (docs : List Doc) :
    processPdfUpload fileName tick none summaryText docs
      = docs ++ [⟨fileName, none, none, none, some tick⟩] := rfl

/-- C6 counterexample: a PDF whose extraction fails (null result) still
produces a document record in the session collection, contradicting the
claim that ingestion of that item is aborted with no record added. -/
theorem C6_cex_record_added_on_parse_failure :
    processPdfUpload "report.pdf" none none "" []
        = [⟨"report.pdf", none, none, none, some none⟩] ∧
    ([⟨"report.pdf", none, none, none, some none⟩] : List Doc) ≠ [] :=
  ⟨rfl, by simp⟩

theorem stripChars_length_le (cs : List Char) :
    (stripChars cs).length ≤ cs.length := by
  have h1 : (cs.dropWhile Char.isWhitespace).length ≤ cs.length :=
    (List.dropWhile_sublist _).length_le
  have h2 : ((cs.dropWhile Char.isWhitespace).reverse.dropWhile Char.isWhitespace).length
      ≤ ((cs.dropWhile Char.isWhitespace).reverse).length :=
    (List.dropWhile_sublist _).length_le
  simp only [stripChars, List.length_reverse] at *
  omega

theorem chunkLoop_mem_length (cs : List Char) (start : Nat) :
    ∀ c ∈ chunkLoop cs start, c.length ≤ 1000 := by
  refine chunkLoop.induct cs
    (fun st => ∀ c ∈ chunkLoop cs st, c.length ≤ 1000) ?_ ?_ start
  · intro st hlt ih
    rw [chunkLoop, dif_pos hlt]
    intro c hc
    rcases List.mem_cons.mp hc with rfl | hc
    · have hle := stripChars_length_le ((cs.drop st).take (nextEnd cs st - st))
      have htake : ((cs.drop st).take (nextEnd cs st - st)).length
          ≤ nextEnd cs st - st := by
        simp [List.length_take]
      have := nextEnd_le cs st
      omega
    · exact ih c hc
  · intro st hge
    rw [chunkLoop, dif_neg hge]
    intro c hc
    simp at hc

theorem chunkLoop_length_le (cs : List Char) (start : Nat) :
    (chunkLoop cs start).length ≤ cs.length - start := by
  refine chunkLoop.induct cs
    (fun st => (chunkLoop cs st).length ≤ cs.length - st) ?_ ?_ start
  · intro st hlt ih
    rw [chunkLoop, dif_pos hlt]
    have h1 := nextEnd_ge cs st
    simp only [List.length_cons]
    omega
  · intro st hge
    rw [chunkLoop, dif_neg hge]
    simp

theorem nextEnd_no_boundary (cs : List Char) (start : Nat)
    (h1 : start + 1000 < cs.length)
    (h2 : rfindDotSpace cs (start + 800) (start + 1000) = none) :
    nextEnd cs start = start + 1000 := by
  unfold nextEnd
  rw [if_pos h1]
  have he : start + 1000 - 200 = start + 800 := by omega
  rw [he, h2]

theorem chunkLoop_step_no_boundary (cs : List Char) (start : Nat)
    (h1 : start + 1000 < cs.length)
    (h2 : rfindDotSpace cs (start + 800) (start + 1000) = none) :
    chunkLoop cs start
      = stripChars ((cs.drop start).take 1000) :: chunkLoop cs (start + 800) := by
  rw [chunkLoop, dif_pos (show start < cs.length by omega)]
  rw [nextEnd_no_boundary cs start h1 h2]
  have ha : start + 1000 - start = 1000 := by omega
  have hb : start + 1000 - 200 = start + 800 := by omega
  rw [ha, hb]

/-- C8: with the default parameters the chunking routine terminates — the
advancing start offset gains at least 601 positions per iteration, the
number of chunks is bounded by the text length — and the empty string
yields the empty sequence.  (Totality of `chunk_text` as a Lean function
rests on exactly this progress bound.) -/
theorem C8_chunking_terminates :
    chunk_text "" = [] ∧
    (∀ (cs : List Char) (start : Nat), start + 601 ≤ nextEnd cs start - 200) ∧
    (∀ s : String, (chunk_text s).length ≤ s.length) := by
  refine ⟨rfl, ?_, ?_⟩
  · intro cs start
    have := nextEnd_ge cs start
    omega
  · intro s
    show (chunk_text s).length ≤ s.data.length
    unfold chunk_text
    split
    · simp
    · have := chunkLoop_length_le s.data 0
      simp only [List.length_map]
      omega

/-- C7 (amended): no chunk produced by the default-parameter chunking
routine exceeds 1000 characters; when no sentence boundary is found in
the search window and the slice end is before the text end, the emitted
chunk is the 1000-character slice stripped of surrounding whitespace —
exactly 1000 characters only when stripping removes nothing. -/
theorem C7_chunk_size_bound :
    (∀ s : String, ∀ c ∈ chunk_text s, c.length ≤ 1000) ∧
    (∀ (cs : List Char) (start : Nat), start + 1000 < cs.length →
      rfindDotSpace cs (start + 800) (start + 1000) = none →
      (chunkLoop cs start).head? = some (stripChars ((cs.drop start).take 1000)) ∧
      (stripChars ((cs.drop start).take 1000) = (cs.drop start).take 1000 →
        (stripChars ((cs.drop start).take 1000)).length = 1000)) := by
  constructor
  · intro s c hc
    unfold chunk_text at hc
    split at hc
    · simp at hc
    · rcases List.mem_map.mp hc with ⟨l, hl, rfl⟩
      show l.length ≤ 1000
      exact chunkLoop_mem_length s.data 0 l hl
  · intro cs start h1 h2
    constructor
    · rw [chunkLoop_step_no_boundary cs start h1 h2]
      rfl
    · intro heq
      rw [heq]
      simp [List.length_take, List.length_drop]
      omega

theorem dotSpaceAt_replicate (n i : Nat) (c : Char) (h : (c == '.') = false) :
    dotSpaceAt (List.replicate n c) i = false := by
  unfold dotSpaceAt
  have g : ∀ j : Nat, (List.replicate n c).getD j 'x' = if j < n then c else 'x' := by
    intro j
    rw [List.getD_eq_getElem?_getD, List.getElem?_replicate]
    split <;> rfl
  rw [g i]
  by_cases hi : i < n
  · rw [if_pos hi, h]
    rfl
  · rw [if_neg hi]
    rfl

theorem rfind_replicate_none (n lo hi : Nat) (c : Char) (h : (c == '.') = false) :
    rfindDotSpace (List.replicate n c) lo hi = none := by
  unfold rfindDotSpace
  rw [List.find?_eq_none]
  intro i _
  simp [dotSpaceAt_replicate n i c h]

theorem isEmpty_replicate_succ (n : Nat) (c : Char) :
    (List.replicate (n + 1) c).isEmpty = false := by
  rw [List.replicate_succ]
  rfl

theorem dropWhile_ws_replicate_space (k : Nat) :
    (List.replicate k ' ').dropWhile Char.isWhitespace = [] := by
  rw [List.dropWhile_replicate]
  rw [if_pos (by decide)]

theorem stripChars_replicate_space (k : Nat) :
    stripChars (List.replicate k ' ') = [] := by
  unfold stripChars
  rw [dropWhile_ws_replicate_space]
  rfl

theorem stripChars_slice_replicate_space (a b : Nat) :
    stripChars (((List.replicate 1001 ' ').drop a).take b) = [] := by
  rw [List.drop_replicate, List.take_replicate]
  exact stripChars_replicate_space _

/-- C7 witness: on a text of 1001 identical non-whitespace characters the
first emitted chunk is the stripped 1000-character slice (here stripping
removes nothing, so the chunk has exactly 1000 characters). -/
theorem C7_chunk_size_bound_witness :
    (chunkLoop (List.replicate 1001 'a') 0).head?
      = some (stripChars (((List.replicate 1001 'a').drop 0).take 1000)) :=
  (C7_chunk_size_bound.2 (List.replicate 1001 'a') 0
    (by rw [List.length_replicate]; omega)
    (rfind_replicate_none 1001 800 1000 'a' (by decide))).1

/-- Boolean check that the label sequence of a fragment list is
duplicate-free. -/
def labelsNodup (l : List (String × String)) : Bool :=
  (l.map Prod.fst) == (l.map Prod.fst).dedup

/-- C7 counterexample: on 1001 space characters, the slice end 1000 is
before the text end, no sentence boundary is found in the search window,
yet the emitted chunk is the empty string (length 0), not a chunk of
exactly 1000 characters as the claim states. -/
theorem C7_cex_stripped_chunk_below_size :
    1000 < (String.mk (List.replicate 1001 ' ')).length ∧
    rfindDotSpace (List.replicate 1001 ' ') 800 1000 = none ∧
    chunk_text (String.mk (List.replicate 1001 ' ')) = ["", ""] ∧
    (("" : String).length == 1000) = false := by
  have hrf : rfindDotSpace (List.replicate 1001 ' ') 800 1000 = none :=
    rfind_replicate_none 1001 800 1000 ' ' (by decide)
  refine ⟨?_, hrf, ?_, by decide⟩
  · show 1000 < (List.replicate 1001 ' ').length
    rw [List.length_replicate]
    omega
  · unfold chunk_text
    have hne : (String.mk (List.replicate 1001 ' ')).data.isEmpty = false :=
      isEmpty_replicate_succ 1000 ' '
    rw [hne, if_neg (by simp)]
    rw [chunkLoop_step_no_boundary (List.replicate 1001 ' ') 0
      (by rw [List.length_replicate]; omega) hrf]
    rw [chunkLoop, dif_pos (show 800 < (List.replicate 1001 ' ').length by
      rw [List.length_replicate]; omega)]
    have h2 : nextEnd (List.replicate 1001 ' ') 800 = 1800 := by
      unfold nextEnd
      rw [if_neg (by rw [List.length_replicate]; omega)]
    rw [h2]
    rw [show (1800 : Nat) - 200 = 1600 from rfl]
    rw [chunkLoop, dif_neg (by rw [List.length_replicate]; omega)]
    rw [show (1800 : Nat) - 800 = 1000 from rfl]
    rw [stripChars_slice_replicate_space 0 1000, stripChars_slice_replicate_space 800 1000]
    rfl

theorem isPrefixOf_append_right (needle post : List Char) :
    needle.isPrefixOf (needle ++ post) = true := by
  rw [List.isPrefixOf_iff_prefix]
  exact ⟨post, rfl⟩

theorem hasSubstr_of_isPrefixOf (hay needle : List Char)
    (h : needle.isPrefixOf hay = true) : hasSubstr hay needle = true := by
  cases hay with
  | nil =>
    cases needle with
    | nil => rfl
    | cons a t => simp [List.isPrefixOf] at h
  | cons c t =>
    show (needle.isPrefixOf (c :: t) || hasSubstr t needle) = true
    rw [h]
    rfl

theorem hasSubstr_of_parts (pre needle post : List Char) :
    hasSubstr (pre ++ needle ++ post) needle = true := by
  induction pre with
  | nil =>
    simp only [List.nil_append]
    exact hasSubstr_of_isPrefixOf _ _ (isPrefixOf_append_right needle post)
  | cons c pre ih =>
    show (needle.isPrefixOf (c :: (pre ++ needle ++ post))
        || hasSubstr (pre ++ needle ++ post) needle) = true
    rw [ih]
    simp

theorem scanCitAux_mem_decomp :
    ∀ (fuel : Nat) (cs l : List Char), l ∈ scanCitAux fuel cs →
      ∃ pre post, cs = pre ++ (srcOpen ++ l ++ [']']) ++ post := by
  intro fuel
  induction fuel with
  | zero =>
    intro cs l hl
    simp [scanCitAux] at hl
  | succ f ih =>
    intro cs l hl
    match cs with
    | [] => simp [scanCitAux] at hl
    | c :: cs =>
      rw [scanCitAux] at hl
      by_cases h1 : srcOpen.isPrefixOf (c :: cs) = true
      · rw [if_pos h1] at hl
        by_cases h2 : (((c :: cs).drop 9).dropWhile (fun x => x != ']')).isEmpty = true
        · rw [if_pos h2] at hl
          obtain ⟨pre, post, hdec⟩ := ih cs l hl
          exact ⟨c :: pre, post, by rw [hdec]; rfl⟩
        · rw [if_neg h2] at hl
          by_cases h3 : (((c :: cs).drop 9).takeWhile (fun x => x != ']')).isEmpty = true
          · rw [if_pos h3] at hl
            obtain ⟨pre, post, hdec⟩ := ih cs l hl
            exact ⟨c :: pre, post, by rw [hdec]; rfl⟩
          · rw [if_neg h3] at hl
            have hw : ((c :: cs).drop 9).dropWhile (fun x => x != ']') ≠ [] := by
              intro hnil
              rw [hnil] at h2
              exact h2 rfl
            have hhead : ((((c :: cs).drop 9).dropWhile (fun x => x != ']')).head hw != ']')
                = false :=
              List.head_dropWhile_not _ _ hw
            have hheadEq : (((c :: cs).drop 9).dropWhile (fun x => x != ']')).head hw
                = ']' := by
              simpa using hhead
            have hfound : ((c :: cs).drop 9).dropWhile (fun x => x != ']')
                = ']' :: (((c :: cs).drop 9).dropWhile (fun x => x != ']')).tail := by
              conv_lhs => rw [← List.head_cons_tail _ hw]
              rw [hheadEq]
            obtain ⟨t, ht⟩ := List.isPrefixOf_iff_prefix.mp h1
            have ht9 : (c :: cs).drop 9 = t := by
              rw [← ht]
              exact List.drop_left' (by rfl)
            have hsplit : ((c :: cs).drop 9).takeWhile (fun x => x != ']')
                ++ ((c :: cs).drop 9).dropWhile (fun x => x != ']') = (c :: cs).drop 9 :=
              List.takeWhile_append_dropWhile _ _
            rw [ht9] at hsplit hfound
            rcases List.mem_cons.mp hl with rfl | hmem
            · refine ⟨[], (t.dropWhile (fun x => x != ']')).tail, ?_⟩
              rw [ht9, ← ht]
              conv_lhs => rw [← hsplit, hfound]
              simp
            · obtain ⟨pre, post, hdec⟩ := ih _ l hmem
              rw [ht9] at hdec
              refine ⟨srcOpen ++ t.takeWhile (fun x => x != ']') ++ [']'] ++ pre, post, ?_⟩
              rw [← ht]
              conv_lhs => rw [← hsplit, hfound, hdec]
              simp
      · rw [if_neg h1] at hl
        obtain ⟨pre, post, hdec⟩ := ih cs l hl
        exact ⟨c :: pre, post, by rw [hdec]; rfl⟩

theorem extractCitations_sub (s : String) (l : String)
    (hl : l ∈ extractCitations s) :
    strIn ("[Source: " ++ l ++ "]") s = true := by
  unfold extractCitations at hl
  have hl2 : l ∈ (scanCitAux s.data.length s.data).map String.mk := List.mem_dedup.mp hl
  obtain ⟨lc, hlc, rfl⟩ := List.mem_map.mp hl2
  obtain ⟨pre, post, hdec⟩ := scanCitAux_mem_decomp s.data.length s.data lc hlc
  have hdata : ("[Source: " ++ String.mk lc ++ "]").data = srcOpen ++ lc ++ [']'] := by
    show ("[Source: ".data ++ lc) ++ "]".data = srcOpen ++ lc ++ [']']
    rfl
  unfold strIn
  rw [hdata, hdec]
  exact hasSubstr_of_parts pre _ post

/-- C2 (amended): the second half of the claim holds — every label the
citation extractor returns from a context produced by the relevance
selector occurs as a bracketed `[Source: ...]` tag in that context — but
the first half fails: fragment labels are not unique per request (see the
counterexample, where one document contributes two chunk fragments that
share its name as label). -/
theorem C2_citations_subset_of_context
    (question : String) (tf : Option String) (docs : List Doc)
    (companies : List Company) (watchlist : List String)
    (sens : List Announcement) (ctx : String) (l : String)
    (hctx : get_relevant_context question tf docs companies watchlist sens
      = Except.ok ctx)
    (hl : l ∈ extractCitations ctx) :
    strIn ("[Source: " ++ l ++ "]") ctx = true :=
  extractCitations_sub ctx l hl

/-- C2 witness: the subset property at a concrete request (one document
named `alpha report` with two chunks). -/
theorem C2_citations_subset_witness :
    strIn "[Source: alpha report]"
      "[Source: alpha report]\nc1\n\n---\n\n[Source: alpha report]\nc2" = true :=
  C2_citations_subset_of_context "report" none
    [⟨"alpha report", none, some ["c1", "c2"], none, some none⟩] [] [] []
    "[Source: alpha report]\nc1\n\n---\n\n[Source: alpha report]\nc2"
    "alpha report" rfl (by decide)

/-- C2 counterexample: a document with two chunks yields two fragments in
one request that share the label `alpha report`, so the fragments of one
request do not carry pairwise-distinct source labels. -/
theorem C2_cex_duplicate_labels :
    contextFragments "report" none
        [⟨"alpha report", none, some ["c1", "c2"], none, some none⟩] [] [] []
      = Except.ok [("alpha report", "c1"), ("alpha report", "c2")] ∧
    labelsNodup [("alpha report", "c1"), ("alpha report", "c2")] = false := by
  exact ⟨rfl, by decide⟩

/-- C3 (amended): when the question contains an announcements/news
keyword and announcements exist, the selector emits one announcements
fragment listing the first five stored announcements in stored order,
each line formatted `- ticker: headline (category)`.  Because new
announcements are appended to the end of the store, these are the five
most recent by date only when the store happens to be ordered
newest-first; they are not the five most recent in general. -/
theorem C3_sens_fragment_first_five (question : String) (tf : Option String)
    (docs : List Doc) (companies : List Company) (watchlist : List String)
    (sens : List Announcement) (frs : List (String × String))
    (hk : sensKeyword question = true) (hne : sens ≠ [])
    (hok : contextFragments question tf docs companies watchlist sens
      = Except.ok frs) :
    ("SENS Announcements", sensLines sens) ∈ frs := by
  have hse : sens.isEmpty = false := by
    cases sens with
    | nil => exact absurd rfl hne
    | cons a t => rfl
  cases hdp : docParts question tf docs with
  | error e =>
    unfold contextFragments at hok
    rw [hdp] at hok
    simp [Bind.bind, Except.bind] at hok
  | ok base =>
    unfold contextFragments at hok
    rw [hdp] at hok
    simp only [Bind.bind, Except.bind, pure, Except.pure] at hok
    rw [Except.ok.injEq] at hok
    subst hok
    rw [if_pos (show (!sens.isEmpty && sensKeyword question) = true by
      rw [hse, hk]; rfl)]
    simp

/-- C3 witness: the announcements fragment at a concrete request with one
stored announcement. -/
theorem C3_sens_fragment_first_five_witness :
    (("SENS Announcements" : String),
        sensLines [⟨"T1", some "h1", some "c", 1⟩])
      ∈ [(("SENS Announcements" : String),
        sensLines [⟨"T1", some "h1", some "c", 1⟩])] :=
  C3_sens_fragment_first_five "news" none [] [] []
    [⟨"T1", some "h1", some "c", 1⟩]
    [(("SENS Announcements" : String), sensLines [⟨"T1", some "h1", some "c", 1⟩])]
    (by decide) (by decide) rfl

/-- Six announcements whose dates increase in stored order, as produced
by appending newly added announcements to the end of the store. -/
def sensSix : List Announcement :=
  [⟨"T1", some "h1", some "c", 1⟩, ⟨"T2", some "h2", some "c", 2⟩,
   ⟨"T3", some "h3", some "c", 3⟩, ⟨"T4", some "h4", some "c", 4⟩,
   ⟨"T5", some "h5", some "c", 5⟩, ⟨"T6", some "h6", some "c", 6⟩]

/-- C3 counterexample: with six announcements stored oldest-first (the
order produced by the add-announcement form), the emitted fragment lists
the five oldest; the most recent announcement (date 6, headline `h6`) is
among the five most recent by date but its headline does not occur in the
fragment, so the fragment does not list the five most recent
announcements. -/
theorem C3_cex_fragment_lists_oldest :
    specMostRecent5 sensSix
      = [⟨"T6", some "h6", some "c", 6⟩, ⟨"T5", some "h5", some "c", 5⟩,
         ⟨"T4", some "h4", some "c", 4⟩, ⟨"T3", some "h3", some "c", 3⟩,
         ⟨"T2", some "h2", some "c", 2⟩] ∧
    contextFragments "news" none [] [] [] sensSix
      = Except.ok [("SENS Announcements", sensLines sensSix)] ∧
    sensLines sensSix
      = "- T1: h1 (c)\n- T2: h2 (c)\n- T3: h3 (c)\n- T4: h4 (c)\n- T5: h5 (c)" ∧
    strIn "h6"
      "- T1: h1 (c)\n- T2: h2 (c)\n- T3: h3 (c)\n- T4: h4 (c)\n- T5: h5 (c)" = false := by
  exact ⟨by decide, rfl, by decide, by decide⟩

/-- A document record with something to contribute: a non-empty chunk
list, or a content key, or a summary key. -/
def hasPayload (d : Doc) : Bool :=
  (match d.chunks with | some cs => !cs.isEmpty | none => false)
  || d.content.isSome || d.summary.isSome

theorem relevant_of_tokenMatch (question : String) (tf : Option String)
    (d : Doc) (b : Bool)
    (hok : isRelevantDoc question tf d = Except.ok b)
    (htm : tokenMatch question (lowerStr d.name) = true) : b = true := by
  unfold isRelevantDoc at hok
  split at hok
  · cases hdt : docTicker d with
    | none => rw [hdt] at hok; simp at hok
    | some dt =>
      rw [hdt] at hok
      rw [Except.ok.injEq] at hok
      rw [← hok, htm]
      simp
  · rw [Except.ok.injEq] at hok
    rw [← hok, htm]

theorem docFragments_label_mem (d : Doc) (hpay : hasPayload d = true) :
    ∃ fr ∈ docFragments d, fr.1 = d.name ∨ fr.1 = d.name ++ " - Summary" := by
  unfold docFragments docContentFrags
  cases hch : d.chunks with
  | some cs =>
    cases cs with
    | nil =>
      simp only [List.isEmpty_nil, if_pos]
      cases hco : d.content with
      | some content => exact ⟨(d.name, strTake content 1500), by simp⟩
      | none =>
        cases hsu : d.summary with
        | some su => exact ⟨(d.name ++ " - Summary", su), by simp⟩
        | none =>
          exfalso
          unfold hasPayload at hpay
          rw [hch, hco, hsu] at hpay
          simp at hpay
    | cons c0 ct =>
      refine ⟨(d.name, strTake c0 800), ?_, by simp⟩
      simp
  | none =>
    cases hco : d.content with
    | some content => exact ⟨(d.name, strTake content 1500), by simp⟩
    | none =>
      cases hsu : d.summary with
      | some su => exact ⟨(d.name ++ " - Summary", su), by simp⟩
      | none =>
        exfalso
        unfold hasPayload at hpay
        rw [hch, hco, hsu] at hpay
        simp at hpay

theorem docParts_mem_of_relevant (question : String) (tf : Option String)
    (d : Doc)
    (htm : tokenMatch question (lowerStr d.name) = true)
    (hpay : hasPayload d = true) :
    ∀ (docs : List Doc) (frs : List (String × String)), d ∈ docs →
      docParts question tf docs = Except.ok frs →
      ∃ fr ∈ frs, fr.1 = d.name ∨ fr.1 = d.name ++ " - Summary" := by
  intro docs
  induction docs with
  | nil =>
    intro frs hd
    simp at hd
  | cons d0 ds ih =>
    intro frs hd hok
    unfold docParts at hok
    cases hrel : isRelevantDoc question tf d0 with
    | error e =>
      rw [hrel] at hok
      simp [Bind.bind, Except.bind] at hok
    | ok b =>
      cases hrest : docParts question tf ds with
      | error e =>
        rw [hrel, hrest] at hok
        simp [Bind.bind, Except.bind] at hok
      | ok rest =>
        rw [hrel, hrest] at hok
        simp only [Bind.bind, Except.bind, pure, Except.pure] at hok
        rw [Except.ok.injEq] at hok
        subst hok
        rcases List.mem_cons.mp hd with rfl | hd'
        · have hb : b = true := relevant_of_tokenMatch question tf d b hrel htm
          subst hb
          obtain ⟨fr, hfr, hlab⟩ := docFragments_label_mem d hpay
          exact ⟨fr, List.mem_append_left _ (by simpa using hfr), hlab⟩
        · obtain ⟨fr, hfr, hlab⟩ := ih rest hd' hrest
          exact ⟨fr, List.mem_append_right _ hfr, hlab⟩

theorem contextFragments_base_sub (question : String) (tf : Option String)
    (docs : List Doc) (companies : List Company) (watchlist : List String)
    (sens : List Announcement) (base frs : List (String × String))
    (hdp : docParts question tf docs = Except.ok base)
    (hok : contextFragments question tf docs companies watchlist sens
      = Except.ok frs) :
    ∀ x ∈ base, x ∈ frs := by
  unfold contextFragments at hok
  rw [hdp] at hok
  simp only [Bind.bind, Except.bind, pure, Except.pure] at hok
  rw [Except.ok.injEq] at hok
  subst hok
  intro x hx
  split <;> split <;> split <;> simp [hx]

/-- C4 (amended): if a document's lowered display name contains a
whitespace-separated token of the question longer than 3 characters and
the document has a payload (non-empty chunks, a content key, or a summary
key), then the selector output contains a fragment labelled with that
document's name (or its name with the summary suffix).  Documents without
any payload — for example CSV/Excel ingestion records, or records left by
a failed PDF extraction — are judged relevant but contribute no fragment,
which is what refutes the claim as stated. -/
theorem C4_matching_doc_contributes (question : String) (tf : Option String)
    (docs : List Doc) (companies : List Company) (watchlist : List String)
    (sens : List Announcement) (d : Doc) (frs : List (String × String))
    (hd : d ∈ docs)
    (htm : tokenMatch question (lowerStr d.name) = true)
    (hpay : hasPayload d = true)
    (hok : contextFragments question tf docs companies watchlist sens
      = Except.ok frs) :
    (frs.any (fun fr => fr.1 == d.name || fr.1 == d.name ++ " - Summary")) = true := by
  cases hdp : docParts question tf docs with
  | error e =>
    unfold contextFragments at hok
    rw [hdp] at hok
    simp [Bind.bind, Except.bind] at hok
  | ok base =>
    obtain ⟨fr, hfr, hlab⟩ :=
      docParts_mem_of_relevant question tf d htm hpay docs base hd hdp
    have hmem := contextFragments_base_sub question tf docs companies watchlist
      sens base frs hdp hok fr hfr
    rw [List.any_eq_true]
    refine ⟨fr, hmem, ?_⟩
    rcases hlab with h | h <;> simp [h]

/-- C4 witness: a text document whose name occurs as a question token
contributes its content fragment. -/
theorem C4_matching_doc_contributes_witness :
    ([(("alpha.txt" : String), ("hello" : String))].any
      (fun fr => fr.1 == "alpha.txt" || fr.1 == "alpha.txt" ++ " - Summary")) = true :=
  C4_matching_doc_contributes "alpha.txt" none
    [⟨"alpha.txt", some "hello", none, none, some none⟩] [] [] []
    ⟨"alpha.txt", some "hello", none, none, some none⟩
    [("alpha.txt", "hello")]
    (by decide) (by decide) (by decide) rfl

/-- C4 counterexample: a CSV ingestion record carries no content, chunks
or summary key; its name matches a question token (so the claim requires
a fragment derived from it), yet the selector returns an empty context
with no fragment at all. -/
theorem C4_cex_csv_doc_contributes_nothing :
    tokenMatch "summarize sales.csv" (lowerStr "sales.csv") = true ∧
    hasPayload ⟨"sales.csv", none, none, none, some none⟩ = false ∧
    get_relevant_context "summarize sales.csv" none
        [⟨"sales.csv", none, none, none, some none⟩] [] [] []
      = Except.ok "" := by
  exact ⟨by decide, by decide, rfl⟩

theorem isRelevantDoc_ok (question : String) (tf : Option String) (d : Doc)
    (h : tickerTruthy tf = false ∨ (docTicker d).isSome = true) :
    ∃ b, isRelevantDoc question tf d = Except.ok b := by
  unfold isRelevantDoc
  cases htf : tickerTruthy tf with
  | false => exact ⟨_, rfl⟩
  | true =>
    rcases h with h | h
    · rw [htf] at h
      exact absurd h (by simp)
    · cases hdt : docTicker d with
      | none => rw [hdt] at h; simp at h
      | some dt => exact ⟨_, rfl⟩

theorem docParts_ok (question : String) (tf : Option String) (docs : List Doc)
    (h : tickerTruthy tf = false ∨ ∀ d ∈ docs, (docTicker d).isSome = true) :
    ∃ base, docParts question tf docs = Except.ok base := by
  induction docs with
  | nil => exact ⟨[], rfl⟩
  | cons d0 ds ih =>
    have h0 : tickerTruthy tf = false ∨ (docTicker d0).isSome = true := by
      rcases h with h | h
      · exact Or.inl h
      · exact Or.inr (h d0 (by simp))
    have hds : tickerTruthy tf = false ∨ ∀ d ∈ ds, (docTicker d).isSome = true := by
      rcases h with h | h
      · exact Or.inl h
      · exact Or.inr (fun d hd => h d (by simp [hd]))
    obtain ⟨b, hb⟩ := isRelevantDoc_ok question tf d0 h0
    obtain ⟨rest, hrest⟩ := ih hds
    refine ⟨(if b then docFragments d0 else []) ++ rest, ?_⟩
    unfold docParts
    rw [hb, hrest]
    rfl

/-- C10 (amended): the relevance selector returns a context string for
every question, entity filter and document collection — except that when
the entity filter is truthy and some stored document's ticker value is
Python `None`, line 42 evaluates `None.lower()` and the call raises
`AttributeError` (see the counterexample).  Off that one path the
function is total. -/
theorem C10_selector_total_unless_null_ticker (question : String)
    (tf : Option String) (docs : List Doc) (companies : List Company)
    (watchlist : List String) (sens : List Announcement)
    (h : tickerTruthy tf = false ∨ ∀ d ∈ docs, (docTicker d).isSome = true) :
    ((get_relevant_context question tf docs companies watchlist sens).toOption).isSome
      = true := by
  obtain ⟨base, hdp⟩ := docParts_ok question tf docs h
  unfold get_relevant_context contextFragments
  rw [hdp]
  rfl

/-- C10 witness: with no entity filter, a document whose stored ticker is
`None` is handled without error. -/
theorem C10_selector_total_witness :
    ((get_relevant_context "hi" none [⟨"doc1", none, none, none, some none⟩]
        [] [] []).toOption).isSome = true :=
  C10_selector_total_unless_null_ticker "hi" none
    [⟨"doc1", none, none, none, some none⟩] [] [] [] (Or.inl rfl)

/-- C10 counterexample: with an entity filter set and a stored document
whose ticker value is `None` (a document ingested with no associated
company), the selector raises instead of returning a context string. -/
theorem C10_cex_null_ticker_raises :
    get_relevant_context "hi" (some "NPN")
        [⟨"doc1", none, none, none, some none⟩] [] [] []
      = Except.error () := rfl

/-- C9 (amended): configuration import applies only the recognized
top-level keys that are present and leaves all other top-level state
(including keys absent from the file and unrelated state such as the
message log) unchanged; however, when the `settings` key is present, all
three model settings are overwritten — any of `cortex_model`,
`temperature`, `max_tokens` missing from the settings object is reset to
its default (`claude-3-5-sonnet`, `0.3`, `2048`) rather than left at its
current value, which is what refutes the claim as stated. -/
theorem C9_import_partial_merge (st : SessionState)
    (cfg : List (String × JVal)) (res : SessionState)
    (hok : applyConfig st cfg = Except.ok res) :
    (List.lookup "portfolio" cfg = none → res.portfolio = st.portfolio) ∧
    (∀ v, List.lookup "portfolio" cfg = some v → res.portfolio = v) ∧
    (List.lookup "watchlist" cfg = none → res.watchlist = st.watchlist) ∧
    (∀ v, List.lookup "watchlist" cfg = some v → res.watchlist = v) ∧
    (List.lookup "tracked_tickers" cfg = none → res.tracked_tickers = st.tracked_tickers) ∧
    (∀ v, List.lookup "tracked_tickers" cfg = some v → res.tracked_tickers = v) ∧
    res.messages = st.messages ∧
    (List.lookup "settings" cfg = none →
      res.cortex_model = st.cortex_model ∧ res.temperature = st.temperature ∧
        res.max_tokens = st.max_tokens) ∧
    (∀ svs, List.lookup "settings" cfg = some (JVal.obj svs) →
      res.cortex_model
          = .atom ((List.lookup "cortex_model" svs).getD (.str "claude-3-5-sonnet")) ∧
        res.temperature = .atom ((List.lookup "temperature" svs).getD (.dec 3 1)) ∧
        res.max_tokens = .atom ((List.lookup "max_tokens" svs).getD (.num 2048))) := by
  unfold applyConfig at hok
  rcases hp : List.lookup "portfolio" cfg with _ | v1 <;>
    rcases hw : List.lookup "watchlist" cfg with _ | v2 <;>
      rcases ht : List.lookup "tracked_tickers" cfg with _ | v3 <;>
        rcases hs : List.lookup "settings" cfg with _ | v4 <;>
          rw [hp, hw, ht, hs] at hok <;>
            [skip; rcases v4 with a4 | svs4; skip; rcases v4 with a4 | svs4;
             skip; rcases v4 with a4 | svs4; skip; rcases v4 with a4 | svs4;
             skip; rcases v4 with a4 | svs4; skip; rcases v4 with a4 | svs4;
             skip; rcases v4 with a4 | svs4; skip; rcases v4 with a4 | svs4] <;>
          first
            | exact Except.noConfusion hok
            | (injection hok with hok
               subst hok
               refine ⟨?_, ?_, ?_, ?_, ?_, ?_, rfl, ?_, ?_⟩ <;> simp [hp, hw, ht, hs])

/-- C9 witness: importing a file containing only a portfolio key applies
that key (other state untouched). -/
theorem C9_import_partial_merge_witness :
    (SessionState.mk (JVal.atom (JAtom.str "pf2")) (JVal.atom (JAtom.str "wl"))
        (JVal.atom (JAtom.str "tt")) (JVal.atom (JAtom.str "m"))
        (JVal.atom (JAtom.dec 7 1)) (JVal.atom (JAtom.num 512))
        (JVal.atom (JAtom.str "msgs"))).portfolio
      = JVal.atom (JAtom.str "pf2") :=
  ((C9_import_partial_merge
      ⟨JVal.atom (JAtom.str "pf1"), JVal.atom (JAtom.str "wl"),
       JVal.atom (JAtom.str "tt"), JVal.atom (JAtom.str "m"),
       JVal.atom (JAtom.dec 7 1), JVal.atom (JAtom.num 512),
       JVal.atom (JAtom.str "msgs")⟩
      [("portfolio", JVal.atom (JAtom.str "pf2"))]
      ⟨JVal.atom (JAtom.str "pf2"), JVal.atom (JAtom.str "wl"),
       JVal.atom (JAtom.str "tt"), JVal.atom (JAtom.str "m"),
       JVal.atom (JAtom.dec 7 1), JVal.atom (JAtom.num 512),
       JVal.atom (JAtom.str "msgs")⟩
      rfl).2.1) (JVal.atom (JAtom.str "pf2")) rfl

/-- C9 counterexample: the stored temperature is 0.7 and the imported
file's `settings` object does not mention `temperature`, yet after import
the temperature is the default 0.3, not the previous 0.7 — the import is
not a pure partial merge for the individual model settings. -/
theorem C9_cex_settings_resets_missing_fields :
    applyConfig
        ⟨JVal.atom (JAtom.str "pf"), JVal.atom (JAtom.str "wl"),
         JVal.atom (JAtom.str "tt"), JVal.atom (JAtom.str "claude-3-5-sonnet"),
         JVal.atom (JAtom.dec 7 1), JVal.atom (JAtom.num 2048),
         JVal.atom (JAtom.str "msgs")⟩
        [("settings", JVal.obj [("cortex_model", JAtom.str "mistral-large")])]
      = Except.ok
        ⟨JVal.atom (JAtom.str "pf"), JVal.atom (JAtom.str "wl"),
         JVal.atom (JAtom.str "tt"), JVal.atom (JAtom.str "mistral-large"),
         JVal.atom (JAtom.dec 3 1), JVal.atom (JAtom.num 2048),
         JVal.atom (JAtom.str "msgs")⟩ ∧
    (JVal.atom (JAtom.dec 3 1) != JVal.atom (JAtom.dec 7 1)) = true := by
  exact ⟨rfl, by decide⟩
